import Mathlib

/-!
Shallow embedding of `src/server/mcp_server_stream.py` (class `OpenAPIMCP`),
an OpenAPI-to-MCP-tools converter.  Pure Python dict/string manipulation is
modelled with association lists (`List (String × _)`) whose insertion
operation `dinsert` has Python's dict-assignment semantics (update in place,
else append), and with explicit character-list string functions mirroring
Python `str.replace`, `str.lower`, `str.upper`.  The network call made by
`api_call` is modelled by an explicit `HttpOutcome` argument describing what
the transport and JSON decoder did; everything before and after that call is
translated directly from the source.
-/

namespace McpStream

/-- Python `str.lower` (ASCII suffices for the extensions checked here). -/
def lowerStr (s : String) : String := ⟨s.data.map Char.toLower⟩

/-- Python `str.upper` (ASCII suffices for the HTTP methods used here). -/
def upperStr (s : String) : String := ⟨s.data.map Char.toUpper⟩

/-- Replace non-overlapping occurrences of `pat` in `s`, left to right:
Python `str.replace` for a non-empty pattern.  The fuel is the length of the
scanned string, which bounds the number of recursion steps. -/
def replChars (fuel : Nat) (s pat rep : List Char) : List Char :=
  match fuel, s with
  | 0, s => s
  | _, [] => []
  | fuel+1, c :: rest =>
    if pat ≠ [] ∧ pat.isPrefixOf (c :: rest) then
      rep ++ replChars fuel ((c :: rest).drop pat.length) pat rep
    else
      c :: replChars fuel rest pat rep

/-- Python `s.replace(pat, rep)` (for the non-empty patterns used by the
source: `"/"` and `"\x7b" ++ name ++ "\x7d"`). -/
def strReplace (s pat rep : String) : String :=
  ⟨replChars s.data.length s.data pat.data rep.data⟩

/-- A JSON-scalar argument / response value.  The claims only ever apply
Python `str()` to scalars, so composite JSON values are not modelled. -/
inductive Value where
  | str (s : String)
  | int (n : Int)
  | bool (b : Bool)
  | null
deriving DecidableEq

/-- Python `str(value)` on the scalar values above. -/
def pyStr : Value → String
  | .str s => s
  | .int n => toString n
  | .bool true => "True"
  | .bool false => "False"
  | .null => "None"

/-- Association-list lookup: Python `d[k]` / `k in d` (dict keys are unique,
so first match is the match). -/
def alookup {α : Type} : List (String × α) → String → Option α
  | [], _ => none
  | (k0, v) :: rest, k => if k0 = k then some v else alookup rest k

/-- Python `k in d`. -/
def keyMem {α : Type} (l : List (String × α)) (k : String) : Bool :=
  (alookup l k).isSome

/-- Python dict assignment `d[k] = v`: update the existing entry in place,
else append a new entry at the end. -/
def dinsert {α : Type} : List (String × α) → String → α → List (String × α)
  | [], k, v => [(k, v)]
  | (k0, v0) :: rest, k, v =>
    if k0 = k then (k0, v) :: rest else (k0, v0) :: dinsert rest k v

/-- The `schema` object of a declared parameter (`param.get('schema', {})`);
only its `type` key is read by the source. -/
structure SchemaObj where
  type_ : Option String
deriving DecidableEq

/-- One entry of an operation's `parameters` list.  `in_loc` is the
parameter's `in` field (`"path"` or `"query"` are the recognized values). -/
structure Param where
  name : String
  in_loc : String
  schema_ : Option SchemaObj
  description : Option String
  required : Option Bool
deriving DecidableEq

/-- One property of a JSON request-body schema. -/
structure PropSchema where
  type_ : Option String
  description : Option String
deriving DecidableEq

/-- `requestBody.content['application/json'].get('schema', {})`:
`properties = none` models a schema without a `properties` key, and
`required = none` a schema without a `required` key. -/
structure BodySchema where
  properties : Option (List (String × PropSchema))
  required : Option (List String)
deriving DecidableEq

/-- A truthy `requestBody` object.  `jsonSchema = some _` models
`'application/json' in request_body.get('content', {})` and carries that
media type's schema. -/
structure RequestBody where
  jsonSchema : Option BodySchema
deriving DecidableEq

/-- One operation object under a path item.  `requestBody = none` models an
absent or empty (falsy) `requestBody`. -/
structure Operation where
  operationId : Option String
  summary : Option String
  description : Option String
  parameters : List Param
  requestBody : Option RequestBody
deriving DecidableEq

/-- One entry of the document's `servers` list; only `url` is read. -/
structure Server where
  url : Option String
deriving DecidableEq

/-- The parsed OpenAPI document, restricted to the keys the source reads:
`servers` (`none` models an absent key) and `paths` as a mapping from path
template to a path item, itself a mapping from key (HTTP method or other
path-item key) to operation object.  The source only inspects the keys of a
path item, so typing every path-item value as `Operation` loses nothing. -/
structure Document where
  servers : Option (List Server)
  paths : List (String × List (String × Operation))
deriving DecidableEq

/-- Errors fatal to startup: `OSError` from `open`, `json`/`yaml` parse
errors, the `ValueError` for an unrecognized extension, and the `IndexError`
from indexing an empty `servers` list. -/
inductive StartupError where
  | ioError
  | parseError
  | valueError
  | indexError
deriving DecidableEq

/-- The opened spec file, described by what each parser would produce on its
contents: `none` models a parse exception. -/
structure SpecFile where
  jsonParse : Option Document
  yamlParse : Option Document
deriving DecidableEq

/-- Lift a parser outcome into the load result. -/
def parseResult (r : Option Document) : Except StartupError Document :=
  match r with
  | some d => .ok d
  | none => .error .parseError

/-- `OpenAPIMCP._load_spec`: `with open(path) as f:` runs first (so an
unreadable file raises before any extension check), then the lower-cased
suffix selects `json.load`, `yaml.safe_load`, or `raise ValueError`.
`file = none` models `open` raising. -/
def _load_spec (suffix : String) (file : Option SpecFile) :
    Except StartupError Document :=
  match file with
  | none => .error .ioError
  | some f =>
    if lowerStr suffix = ".json" then
      parseResult f.jsonParse
    else if lowerStr suffix = ".yaml" ∨ lowerStr suffix = ".yml" then
      parseResult f.yamlParse
    else
      .error .valueError

/-- `self.spec.get('servers', [{}])[0].get('url', '')`: an absent `servers`
key defaults to `[{}]` whose first entry has no `url`, hence `""`; a present
but empty list raises `IndexError`; otherwise the first entry's `url`
(defaulting to `""`). -/
def serversUrl (doc : Document) : Except StartupError String :=
  match doc.servers with
  | none => .ok ""
  | some [] => .error .indexError
  | some (srv :: _) => .ok (srv.url.getD "")

/-- `self.base_url = base_url or self.spec.get('servers', [{}])[0].get('url', '')`:
Python `or` falls through on a falsy (absent or empty) override. -/
def compute_base_url (base_url : Option String) (doc : Document) :
    Except StartupError String :=
  match base_url with
  | some s => if s = "" then serversUrl doc else .ok s
  | none => serversUrl doc

/-- The flattened parameter-schema entry built by `_create_tool`. -/
structure SchemaEntry where
  type_ : String
  description : String
  required : Bool
deriving DecidableEq

/-- Entry for a declared parameter:
`{'type': param.get('schema', {}).get('type', 'string'),
  'description': param.get('description', ''),
  'required': param.get('required', False)}`. -/
def paramEntry (p : Param) : SchemaEntry :=
  { type_ := (match p.schema_ with | some s => s.type_ | none => none).getD "string"
  , description := p.description.getD ""
  , required := p.required.getD false }

/-- Entry for a JSON-body property:
`{'type': prop_schema.get('type', 'string'),
  'description': prop_schema.get('description', ''),
  'required': prop_name in schema.get('required', [])}`. -/
def propEntry (reqList : List String) (pn : String) (ps : PropSchema) : SchemaEntry :=
  { type_ := ps.type_.getD "string"
  , description := ps.description.getD ""
  , required := decide (pn ∈ reqList) }

/-- The first phase of `_create_tool`'s `param_schema` construction: one
entry per declared parameter, in order. -/
def base_param_schema (parameters : List Param) : List (String × SchemaEntry) :=
  parameters.foldl (fun acc p => dinsert acc p.name (paramEntry p)) []

/-- The `param_schema` dict built by `_create_tool`: declared parameters
first, then (when a JSON request body with `properties` is declared) each
body property, overwriting same-named entries. -/
def build_param_schema (parameters : List Param) (requestBody : Option RequestBody) :
    List (String × SchemaEntry) :=
  match requestBody with
  | none => base_param_schema parameters
  | some rb =>
    match rb.jsonSchema with
    | none => base_param_schema parameters
    | some bs =>
      match bs.properties with
      | none => base_param_schema parameters
      | some props =>
        props.foldl
          (fun acc pp => dinsert acc pp.1 (propEntry (bs.required.getD []) pp.1 pp.2))
          (base_param_schema parameters)

/-- `request_body and 'application/json' in request_body.get('content', {})`. -/
def has_json_body (requestBody : Option RequestBody) : Bool :=
  match requestBody with
  | some rb => rb.jsonSchema.isSome
  | none => false

/-- One step of the path-parameter loop of `api_call`:
`if param['in'] == 'path' and param['name'] in kwargs:
   url = url.replace('\x7b' + param['name'] + '\x7d', str(kwargs[param['name']]))`. -/
def pstep (kwargs : List (String × Value)) (u : String) (p : Param) : String :=
  if p.in_loc = "path" then
    match alookup kwargs p.name with
    | some v => strReplace u ("\x7b" ++ p.name ++ "\x7d") (pyStr v)
    | none => u
  else u

/-- The path-parameter substitution loop of `api_call`. -/
def substPathParams (parameters : List Param) (kwargs : List (String × Value))
    (url : String) : String :=
  parameters.foldl (pstep kwargs) url

/-- One step of the query-parameter loop of `api_call`:
`if param['in'] == 'query' and param['name'] in kwargs:
   params[param['name']] = kwargs[param['name']]`. -/
def qstep (kwargs : List (String × Value)) (acc : List (String × Value))
    (p : Param) : List (String × Value) :=
  if p.in_loc = "query" then
    match alookup kwargs p.name with
    | some v => dinsert acc p.name v
    | none => acc
  else acc

/-- The `params` dict built by the query-parameter loop of `api_call`. -/
def collectQueryParams (parameters : List Param) (kwargs : List (String × Value)) :
    List (String × Value) :=
  parameters.foldl (qstep kwargs) []

/-- The `data` dict of `api_call`: `{}` unless the operation declares a JSON
request body, in which case
`{k: v for k, v in kwargs.items() if k not in params}`. -/
def collectBodyData (hasJson : Bool) (kwargs params : List (String × Value)) :
    List (String × Value) :=
  if hasJson then kwargs.filter (fun kv => ! keyMem params kv.1) else []

/-- The HTTP request handed to `client.request` by `api_call`:
`json = data if data else None`. -/
structure HttpRequest where
  method : String
  url : String
  queryParams : List (String × Value)
  jsonBody : Option (List (String × Value))
  headers : List (String × String)
deriving DecidableEq

/-- Everything `api_call` computes before the network call: URL with path
parameters substituted into `base_url + path`, the query-parameter set, the
body mapping, the upper-cased method, and the fixed header. -/
def api_call_request (base_url path method : String) (parameters : List Param)
    (hasJson : Bool) (kwargs : List (String × Value)) : HttpRequest :=
  let url := substPathParams parameters kwargs (base_url ++ path)
  let params := collectQueryParams parameters kwargs
  let data := collectBodyData hasJson kwargs params
  { method := upperStr method
  , url := url
  , queryParams := params
  , jsonBody := if data = [] then none else some data
  , headers := [("Content-Type", "application/json")] }

/-- What the transport and decoder did inside the `try` block of `api_call`:
either `client.request` raised (`exn`, with the exception's `str`), or a
response arrived with a status code, the `str` of the `HTTPStatusError` that
`raise_for_status` would raise, and the outcome of `response.json()`
(`Except.error` models a decode exception, carrying its `str`). -/
inductive HttpOutcome where
  | exn (msg : String)
  | resp (status : Nat) (statusMsg : String) (body : Except String Value)

/-- An invocation's result value: decoded JSON or a text string. -/
inductive CallResult where
  | json (v : Value)
  | text (s : String)
deriving DecidableEq

/-- The fixed prefix of every error result of `api_call`. -/
def errorMarker : String := "Error making API call: "

/-- The `try`/`except` tail of `api_call`: `response.raise_for_status()`
raises unless the status is a success (2xx) status, `response.json()` is
returned on success, and any exception `e` is converted to
`f"Error making API call: \x7bstr(e)\x7d"`. -/
def api_call_result (outcome : HttpOutcome) : CallResult :=
  match outcome with
  | .exn msg => .text (errorMarker ++ msg)
  | .resp status statusMsg body =>
    if status < 200 ∨ 300 ≤ status then
      .text (errorMarker ++ statusMsg)
    else
      match body with
      | .ok v => .json v
      | .error msg => .text (errorMarker ++ msg)

/-- The outcomes on which the `try` block of `api_call` raises internally:
a transport exception, a non-2xx status, or a decode failure. -/
def isFailureOutcome : HttpOutcome → Bool
  | .exn _ => true
  | .resp status _ body =>
    decide (status < 200 ∨ 300 ≤ status) ||
      (match body with | .ok _ => false | .error _ => true)

/-- `operation.get('operationId', f"\x7bmethod\x7d_\x7bpath.replace('/', '_')\x7d")`. -/
def derive_operation_id (path method : String) (op : Operation) : String :=
  op.operationId.getD (method ++ "_" ++ strReplace path "/" "_")

/-- The synthesized tool.  `registeredName` is the name under which the tool
is registered with the external host: `self.mcp.tool()(api_call)` runs while
the handler's `__name__` is still the literal `"api_call"` — FastMCP's
`tool()` decorator builds its tool record from `fn.__name__` at call time —
and `api_call.__name__ = operation_id` is executed only on the following
line, after registration has completed.  `derivedName` is that
`operation_id`. -/
structure Tool where
  registeredName : String
  derivedName : String
  path : String
  method : String
  parameters : List Param
  hasJsonBody : Bool
  paramSchema : List (String × SchemaEntry)
deriving DecidableEq

/-- `OpenAPIMCP._create_tool`. -/
def _create_tool (path method : String) (op : Operation) : Tool :=
  { registeredName := "api_call"
  , derivedName := derive_operation_id path method op
  , path := path
  , method := method
  , parameters := op.parameters
  , hasJsonBody := has_json_body op.requestBody
  , paramSchema := build_param_schema op.parameters op.requestBody }

/-- The method allow-list of `_create_tools`. -/
def http_methods : List String := ["get", "post", "put", "delete", "patch"]

/-- `OpenAPIMCP._create_tools`: for every path, for every key of its path
item whose lower-casing is a recognized HTTP method, create one tool. -/
def _create_tools (doc : Document) : List Tool :=
  doc.paths.flatMap (fun pi =>
    pi.2.filterMap (fun mo =>
      if lowerStr mo.1 ∈ http_methods then
        some (_create_tool pi.1 mo.1 mo.2)
      else none))

/-- The (path, method, operation) triples of a document whose path-item key
lower-cases to a recognized HTTP method. -/
def recognizedPairs (doc : Document) : List (String × String × Operation) :=
  doc.paths.flatMap (fun pi =>
    (pi.2.filter (fun mo => decide (lowerStr mo.1 ∈ http_methods))).map
      (fun mo => (pi.1, mo.1, mo.2)))

/-! ### Association-list lemmas -/

theorem alookup_dinsert_self {α : Type} (l : List (String × α)) (k : String) (v : α) :
    alookup (dinsert l k v) k = some v := by
  induction l with
  | nil => simp [dinsert, alookup]
  | cons hd tl ih =>
    by_cases h : hd.1 = k
    · simp [dinsert, h, alookup]
    · simp [dinsert, h, alookup, ih]

theorem alookup_dinsert_ne {α : Type} (l : List (String × α)) (k : String) (v : α)
    (k2 : String) (h : k2 ≠ k) :
    alookup (dinsert l k v) k2 = alookup l k2 := by
  induction l with
  | nil => simp [dinsert, alookup, Ne.symm h]
  | cons hd tl ih =>
    obtain ⟨k0, v0⟩ := hd
    by_cases h0 : k0 = k
    · subst h0
      simp [dinsert, alookup, Ne.symm h]
    · by_cases h1 : k0 = k2
      · simp [dinsert, h0, alookup, h1, h]
      · simp [dinsert, h0, alookup, h1, ih]

theorem keyMem_dinsert_self {α : Type} (l : List (String × α)) (k : String) (v : α) :
    keyMem (dinsert l k v) k = true := by
  simp [keyMem, alookup_dinsert_self]

theorem keyMem_dinsert_mono {α : Type} (l : List (String × α)) (k : String) (v : α)
    (k2 : String) (h : keyMem l k2 = true) : keyMem (dinsert l k v) k2 = true := by
  by_cases hk : k2 = k
  · subst hk; exact keyMem_dinsert_self l k2 v
  · simpa [keyMem, alookup_dinsert_ne l k v k2 hk] using h

theorem alookup_mem {α : Type} (l : List (String × α)) (k : String) (v : α)
    (h : alookup l k = some v) : (k, v) ∈ l := by
  induction l with
  | nil => simp [alookup] at h
  | cons hd tl ih =>
    obtain ⟨k0, v0⟩ := hd
    by_cases h0 : k0 = k
    · subst h0
      simp only [alookup, if_pos rfl] at h
      injection h with hv
      subst hv
      exact List.mem_cons_self _ _
    · simp only [alookup, if_neg h0] at h
      exact List.mem_cons_of_mem _ (ih h)

/-! ### Query-parameter collection lemmas -/

theorem keyMem_qstep_mono (kwargs acc : List (String × Value)) (p : Param)
    (k : String) (h : keyMem acc k = true) : keyMem (qstep kwargs acc p) k = true := by
  unfold qstep
  by_cases hq : p.in_loc = "query"
  · simp only [hq, if_pos]
    cases hv : alookup kwargs p.name with
    | none => simpa using h
    | some v => simpa using keyMem_dinsert_mono acc p.name v k h
  · simpa [hq] using h

theorem keyMem_foldl_qstep_mono (kwargs : List (String × Value)) (ps : List Param)
    (acc : List (String × Value)) (k : String) (h : keyMem acc k = true) :
    keyMem (ps.foldl (qstep kwargs) acc) k = true := by
  induction ps generalizing acc with
  | nil => simpa using h
  | cons hd tl ih => exact ih (qstep kwargs acc hd) (keyMem_qstep_mono kwargs acc hd k h)

theorem collectQueryParams_keyMem (ps : List Param) (kwargs : List (String × Value))
    (p : Param) (hp : p ∈ ps) (hq : p.in_loc = "query")
    (hs : (alookup kwargs p.name).isSome = true) :
    keyMem (collectQueryParams ps kwargs) p.name = true := by
  have main : ∀ (l : List Param) (acc : List (String × Value)), p ∈ l →
      keyMem (l.foldl (qstep kwargs) acc) p.name = true := by
    intro l
    induction l with
    | nil => intro acc hmem; simp at hmem
    | cons hd tl ih =>
      intro acc hmem
      rcases List.mem_cons.mp hmem with heq | htl
      · subst heq
        rcases Option.isSome_iff_exists.mp hs with ⟨v, hv⟩
        have hstep : keyMem (qstep kwargs acc p) p.name = true := by
          unfold qstep
          simp [hq, hv, keyMem_dinsert_self]
        simpa using keyMem_foldl_qstep_mono kwargs tl (qstep kwargs acc p) p.name hstep
      · simp only [List.foldl_cons]
        exact ih (qstep kwargs acc hd) htl
  exact main ps [] hp

/-! ### Fold-of-dinsert lookup lemmas (parameter-schema construction) -/

theorem alookup_foldl_dinsert_not_mem {β γ : Type} (g : String → β → γ)
    (props : List (String × β)) (base : List (String × γ)) (pn : String)
    (h : pn ∉ props.map Prod.fst) :
    alookup (props.foldl (fun acc pp => dinsert acc pp.1 (g pp.1 pp.2)) base) pn
      = alookup base pn := by
  induction props generalizing base with
  | nil => rfl
  | cons hd tl ih =>
    have hne : pn ≠ hd.1 := by
      intro he; exact h (by simp [he])
    have htl : pn ∉ tl.map Prod.fst := by
      intro hm; exact h (by simp [hm])
    simp only [List.foldl_cons]
    rw [ih (dinsert base hd.1 (g hd.1 hd.2)) htl,
      alookup_dinsert_ne base hd.1 (g hd.1 hd.2) pn hne]

theorem alookup_foldl_dinsert {β γ : Type} (g : String → β → γ)
    (props : List (String × β)) (base : List (String × γ)) (pn : String) (psch : β)
    (hnd : (props.map Prod.fst).Nodup) (hmem : (pn, psch) ∈ props) :
    alookup (props.foldl (fun acc pp => dinsert acc pp.1 (g pp.1 pp.2)) base) pn
      = some (g pn psch) := by
  induction props generalizing base with
  | nil => simp at hmem
  | cons hd tl ih =>
    obtain ⟨k0, v0⟩ := hd
    rw [List.map_cons] at hnd
    have hnd1 : k0 ∉ tl.map Prod.fst := (List.nodup_cons.mp hnd).1
    have hnd2 : (tl.map Prod.fst).Nodup := (List.nodup_cons.mp hnd).2
    rcases List.mem_cons.mp hmem with heq | htl
    · have hpn : pn = k0 := congrArg Prod.fst heq
      have hps : psch = v0 := congrArg Prod.snd heq
      subst hpn
      subst hps
      simp only [List.foldl_cons]
      rw [alookup_foldl_dinsert_not_mem g tl (dinsert base pn (g pn psch)) pn hnd1,
        alookup_dinsert_self]
    · simp only [List.foldl_cons]
      exact ih (dinsert base k0 (g k0 v0)) hnd2 htl

/-! ### Concrete fixtures used by witnesses and counterexamples -/

/-- An empty document. -/
def doc0 : Document := { servers := none, paths := [] }

/-- A spec file whose contents are valid JSON but not valid YAML. -/
def file0 : SpecFile := { jsonParse := some doc0, yamlParse := none }

/-- A spec file whose contents are valid YAML but not valid JSON. -/
def file1 : SpecFile := { jsonParse := none, yamlParse := some doc0 }

/-- A document whose `servers` key is present but holds an empty list. -/
def emptyServersDoc : Document := { servers := some [], paths := [] }

/-- The spec's `GET /ping` example operation. -/
def ping_operation : Operation :=
  { operationId := some "ping", summary := none, description := none
  , parameters := [], requestBody := none }

/-! ### Claims -/

/-- C2: for every tool invocation and every exception raised during
transport, status checking, or response decoding (including a non-2xx HTTP
status), `api_call` never propagates the exception: it returns a descriptive
text string starting with the fixed error marker as its result value. -/
theorem c2_invocation_errors_returned_as_text (o : HttpOutcome)
    (h : isFailureOutcome o = true) :
    ∃ tail, api_call_result o = CallResult.text (errorMarker ++ tail) := by
  cases o with
  | exn msg => exact ⟨msg, rfl⟩
  | resp status statusMsg body =>
    by_cases hs : status < 200 ∨ 300 ≤ status
    · exact ⟨statusMsg, by simp [api_call_result, hs]⟩
    · cases body with
      | ok v =>
        exfalso
        simp [isFailureOutcome, hs] at h
      | error msg => exact ⟨msg, by simp [api_call_result, hs]⟩

/-- C2 witness: an HTTP 500 response yields a text result carrying the
error marker, not a propagated error. -/
theorem c2_witness :
    ∃ tail,
      api_call_result (HttpOutcome.resp 500 "Server error" (Except.ok Value.null))
        = CallResult.text (errorMarker ++ tail) :=
  c2_invocation_errors_returned_as_text _ (by decide)

/-- C5 (code bug): the registration call `self.mcp.tool()(api_call)` runs
before `api_call.__name__ = operation_id`, so every tool is registered under
the handler's original name `"api_call"`, not under its derived name — even
though the derived name itself is computed exactly as the claim states
(explicit `operationId`, else `"\x7bmethod\x7d_\x7bpath\x7d"` with `'/'`
replaced by `'_'`). -/
theorem c5_registration_precedes_naming :
    (∀ (path method : String) (op : Operation),
        (_create_tool path method op).registeredName = "api_call")
  ∧ (_create_tool "/ping" "get" ping_operation).derivedName = "ping"
  ∧ (_create_tool "/ping" "get" ping_operation).registeredName
      ≠ (_create_tool "/ping" "get" ping_operation).derivedName
  ∧ derive_operation_id "/items" "get"
      { operationId := none, summary := none, description := none
      , parameters := [], requestBody := none } = "get__items" :=
  ⟨fun _ _ _ => rfl, rfl, by decide, by decide⟩

/-- C6 counterexample: with no override and a present-but-empty `servers`
list, startup raises `IndexError` instead of falling back to the empty
string, so the base URL is not the empty string (nor any string). -/
theorem c6_counterexample :
    compute_base_url none emptyServersDoc = Except.error StartupError.indexError
  ∧ ∀ s : String, compute_base_url none emptyServersDoc ≠ Except.ok s := by
  constructor
  · rfl
  · intro s h
    simp [compute_base_url, serversUrl, emptyServersDoc] at h

/-- C6 (amended): the base URL is the explicit override when given and
non-empty (an empty override is treated as absent, by Python `or`
truthiness); otherwise the empty string when the `servers` key is absent;
otherwise the `url` of the first `servers` entry (defaulting to the empty
string) — except that a present-but-empty `servers` list raises `IndexError`
at startup. -/
theorem c6_base_url_selection :
    (∀ (s : String) (doc : Document), s ≠ "" →
        compute_base_url (some s) doc = Except.ok s)
  ∧ (∀ doc : Document, compute_base_url (some "") doc = compute_base_url none doc)
  ∧ (∀ doc : Document, doc.servers = none → compute_base_url none doc = Except.ok "")
  ∧ (∀ (doc : Document) (srv : Server) (rest : List Server),
        doc.servers = some (srv :: rest) →
        compute_base_url none doc = Except.ok (srv.url.getD ""))
  ∧ (∀ doc : Document, doc.servers = some [] →
        compute_base_url none doc = Except.error StartupError.indexError) := by
  refine ⟨?_, ?_, ?_, ?_, ?_⟩
  · intro s doc hs
    simp [compute_base_url, hs]
  · intro doc
    rfl
  · intro doc h
    simp [compute_base_url, serversUrl, h]
  · intro doc srv rest h
    simp [compute_base_url, serversUrl, h]
  · intro doc h
    simp [compute_base_url, serversUrl, h]

/-- C6 witness: a non-empty override wins; an absent `servers` key yields
the empty string; a non-empty `servers` list yields its first entry's url. -/
theorem c6_witness :
    compute_base_url (some "http://o") emptyServersDoc = Except.ok "http://o"
  ∧ compute_base_url none doc0 = Except.ok ""
  ∧ compute_base_url none
      { servers := some [{ url := some "http://s" }], paths := [] }
      = Except.ok "http://s" :=
  ⟨c6_base_url_selection.1 "http://o" emptyServersDoc (by decide),
   c6_base_url_selection.2.2.1 doc0 rfl,
   c6_base_url_selection.2.2.2.1
     { servers := some [{ url := some "http://s" }], paths := [] }
     { url := some "http://s" } [] rfl⟩

/-- C7: `_load_spec` parses the opened file as JSON when the (lower-cased)
extension is `.json`, as YAML when it is `.yaml` or `.yml`, and raises the
configuration `ValueError` for any other extension; an unreadable file
raises an I/O error and malformed content a parse error, both fatal, with no
partial or fallback parsing. -/
theorem c7_extension_dispatch (suffix : String) (f : SpecFile) :
    (lowerStr suffix = ".json" → _load_spec suffix (some f) = parseResult f.jsonParse)
  ∧ ((lowerStr suffix = ".yaml" ∨ lowerStr suffix = ".yml") →
        _load_spec suffix (some f) = parseResult f.yamlParse)
  ∧ (lowerStr suffix ≠ ".json" → lowerStr suffix ≠ ".yaml" → lowerStr suffix ≠ ".yml" →
        _load_spec suffix (some f) = Except.error StartupError.valueError)
  ∧ (lowerStr suffix = ".json" → f.jsonParse = none →
        _load_spec suffix (some f) = Except.error StartupError.parseError)
  ∧ ((lowerStr suffix = ".yaml" ∨ lowerStr suffix = ".yml") → f.yamlParse = none →
        _load_spec suffix (some f) = Except.error StartupError.parseError)
  ∧ (_load_spec suffix none = Except.error StartupError.ioError) := by
  refine ⟨?_, ?_, ?_, ?_, ?_, rfl⟩
  · intro h
    simp [_load_spec, h]
  · intro h
    rcases h with h | h <;> simp [_load_spec, h]
  · intro h1 h2 h3
    simp [_load_spec, h1, h2, h3]
  · intro h hp
    simp [_load_spec, h, hp, parseResult]
  · intro h hp
    rcases h with h | h <;> simp [_load_spec, h, hp, parseResult]

/-- C7 witness: `.JSON` parses as JSON, `.yml` as YAML, `.txt` is a
configuration error, and malformed JSON is a parse error. -/
theorem c7_witness :
    _load_spec ".JSON" (some file0) = Except.ok doc0
  ∧ _load_spec ".yml" (some file1) = Except.ok doc0
  ∧ _load_spec ".txt" (some file0) = Except.error StartupError.valueError
  ∧ _load_spec ".json" (some file1) = Except.error StartupError.parseError := by
  refine ⟨?_, ?_, ?_, ?_⟩
  · rw [(c7_extension_dispatch ".JSON" file0).1 (by decide)]
    rfl
  · rw [(c7_extension_dispatch ".yml" file1).2.1 (Or.inr (by decide))]
    rfl
  · exact (c7_extension_dispatch ".txt" file0).2.2.1 (by decide) (by decide) (by decide)
  · exact (c7_extension_dispatch ".json" file1).2.2.2.1 (by decide) rfl

/-- C10: `_load_spec` opens the file before checking its extension: an
unreadable file yields the I/O error whatever the extension, and the
configuration (unrecognized-extension) error can only arise once the file
has been opened successfully. -/
theorem c10_open_before_suffix_check :
    (∀ suffix : String, _load_spec suffix none = Except.error StartupError.ioError)
  ∧ (∀ (suffix : String) (file : Option SpecFile),
        _load_spec suffix file = Except.error StartupError.valueError →
        file.isSome = true) := by
  constructor
  · intro suffix
    rfl
  · intro suffix file h
    cases file with
    | none => exact absurd (Except.error.inj h) (by decide)
    | some f => rfl

/-- C10 witness: with the unrecognized extension `.txt`, an unopenable file
is an I/O error, and a successfully opened file is what the configuration
error implies. -/
theorem c10_witness :
    _load_spec ".txt" none = Except.error StartupError.ioError
  ∧ (Option.some file0).isSome = true :=
  ⟨c10_open_before_suffix_check.1 ".txt",
   c10_open_before_suffix_check.2 ".txt" (some file0) (by rfl)⟩

/-- The spec's example path parameter `id`. -/
def idParam : Param :=
  { name := "id", in_loc := "path", schema_ := none, description := none
  , required := none }

/-- The spec's example query parameter `limit`. -/
def limitParam : Param :=
  { name := "limit", in_loc := "query", schema_ := none, description := none
  , required := none }

/-- A query-location parameter that shares the name `id` with `idParam`. -/
def dupQueryParam : Param :=
  { name := "id", in_loc := "query", schema_ := none, description := none
  , required := none }

/-- C3: a declared path-location parameter whose name appears in the
arguments has every occurrence of its literal placeholder in
`base_url + path` replaced by the Python string form of the argument value
(first conjunct, stated for the operation's one-parameter form which is the
single substitution step); a declared parameter absent from the arguments
contributes nothing — the URL is exactly what it would be were that
parameter not declared, so its placeholder stays unsubstituted (second
conjunct). -/
theorem c3_path_substitution :
    (∀ (base tmpl method : String) (hasJson : Bool) (p : Param) (v : Value)
        (kwargs : List (String × Value)),
        p.in_loc = "path" →
        alookup kwargs p.name = some v →
        (api_call_request base tmpl method [p] hasJson kwargs).url
          = strReplace (base ++ tmpl) ("\x7b" ++ p.name ++ "\x7d") (pyStr v))
  ∧ (∀ (base tmpl method : String) (hasJson : Bool) (ps1 : List Param) (p : Param)
        (ps2 : List Param) (kwargs : List (String × Value)),
        alookup kwargs p.name = none →
        (api_call_request base tmpl method (ps1 ++ p :: ps2) hasJson kwargs).url
          = (api_call_request base tmpl method (ps1 ++ ps2) hasJson kwargs).url) := by
  constructor
  · intro base tmpl method hasJson p v kwargs h1 h2
    simp [api_call_request, substPathParams, pstep, h1, h2]
  · intro base tmpl method hasJson ps1 p ps2 kwargs h
    have hstep : ∀ u, pstep kwargs u p = u := by
      intro u
      unfold pstep
      by_cases hl : p.in_loc = "path" <;> simp [hl, h]
    simp [api_call_request, substPathParams, List.foldl_append, hstep]

/-- C3 witness: invoking `/items/\x7bid\x7d` with `id = 42` yields
`.../items/42`; invoking with no arguments leaves the placeholder. -/
theorem c3_witness :
    (api_call_request "http://api" "/items/\x7bid\x7d" "get" [idParam] false
        [("id", Value.int 42)]).url = "http://api/items/42"
  ∧ (api_call_request "http://api" "/items/\x7bid\x7d" "get" [idParam] false []).url
      = "http://api/items/\x7bid\x7d" := by
  constructor
  · rw [c3_path_substitution.1 "http://api" "/items/\x7bid\x7d" "get" false idParam
      (Value.int 42) [("id", Value.int 42)] rfl (by decide)]
    decide
  · exact (c3_path_substitution.2 "http://api" "/items/\x7bid\x7d" "get" false []
      idParam [] [] rfl).trans (by decide)

/-- C1: every declared query-location parameter whose name appears in the
arguments lands in the query-parameter set; with a declared JSON request
body, every argument whose name is not in the query set lands in the body
mapping; and the body mapping is sent as the JSON payload exactly when it is
non-empty, otherwise no payload is sent. -/
theorem c1_query_body_partition (base path method : String) (ps : List Param)
    (hasJson : Bool) (kwargs : List (String × Value)) :
    (∀ p ∈ ps, p.in_loc = "query" → (alookup kwargs p.name).isSome = true →
        keyMem (api_call_request base path method ps hasJson kwargs).queryParams
          p.name = true)
  ∧ (hasJson = true → ∀ kv ∈ kwargs,
        keyMem (api_call_request base path method ps hasJson kwargs).queryParams
          kv.1 = false →
        kv ∈ (api_call_request base path method ps hasJson kwargs).jsonBody.getD [])
  ∧ (∀ b, (api_call_request base path method ps hasJson kwargs).jsonBody = some b →
        b ≠ [] ∧ b = collectBodyData hasJson kwargs (collectQueryParams ps kwargs))
  ∧ ((api_call_request base path method ps hasJson kwargs).jsonBody = none ↔
        collectBodyData hasJson kwargs (collectQueryParams ps kwargs) = []) := by
  have hq : (api_call_request base path method ps hasJson kwargs).queryParams
      = collectQueryParams ps kwargs := rfl
  have hb : (api_call_request base path method ps hasJson kwargs).jsonBody
      = (if collectBodyData hasJson kwargs (collectQueryParams ps kwargs) = []
         then none
         else some (collectBodyData hasJson kwargs (collectQueryParams ps kwargs))) :=
    rfl
  refine ⟨?_, ?_, ?_, ?_⟩
  · intro p hp hloc hsome
    rw [hq]
    exact collectQueryParams_keyMem ps kwargs p hp hloc hsome
  · intro hj kv hkv hnot
    subst hj
    rw [hq] at hnot
    have hmem : kv ∈ collectBodyData true kwargs (collectQueryParams ps kwargs) := by
      show kv ∈ kwargs.filter (fun kv2 => ! keyMem (collectQueryParams ps kwargs) kv2.1)
      exact List.mem_filter.mpr ⟨hkv, by simp [hnot]⟩
    have hne := List.ne_nil_of_mem hmem
    have hbody : (api_call_request base path method ps true kwargs).jsonBody
        = some (collectBodyData true kwargs (collectQueryParams ps kwargs)) := by
      rw [hb, if_neg hne]
    rw [hbody]
    simpa using hmem
  · intro b hbe
    rw [hb] at hbe
    by_cases hnil : collectBodyData hasJson kwargs (collectQueryParams ps kwargs) = []
    · rw [if_pos hnil] at hbe
      exact absurd hbe (by simp)
    · rw [if_neg hnil] at hbe
      have := Option.some.inj hbe
      exact ⟨this ▸ hnil, this.symm⟩
  · rw [hb]
    by_cases hnil :
        collectBodyData hasJson kwargs (collectQueryParams ps kwargs) = [] <;>
      simp [hnil]

/-- C1 witness: with declared query parameter `limit`, the argument
`limit = 5` lands in the query set and the undeclared argument `note` lands
in the JSON body. -/
theorem c1_witness :
    keyMem (api_call_request "http://h" "/s" "get" [limitParam] true
        [("limit", Value.int 5), ("note", Value.str "x")]).queryParams "limit" = true
  ∧ ("note", Value.str "x") ∈ (api_call_request "http://h" "/s" "get" [limitParam] true
        [("limit", Value.int 5), ("note", Value.str "x")]).jsonBody.getD [] :=
  ⟨(c1_query_body_partition "http://h" "/s" "get" [limitParam] true
      [("limit", Value.int 5), ("note", Value.str "x")]).1 limitParam (by decide) rfl
      (by decide),
   (c1_query_body_partition "http://h" "/s" "get" [limitParam] true
      [("limit", Value.int 5), ("note", Value.str "x")]).2.1 rfl
      ("note", Value.str "x") (by decide) (by decide)⟩

/-- C9 counterexample: with `id` declared both as a path-location and as a
query-location parameter, the argument `id = 7` goes to the query set, so
the body mapping comes out empty and no payload is sent — the path-bound
argument is **not** included in the JSON body, contradicting the claim as
stated. -/
theorem c9_counterexample :
    idParam ∈ [idParam, dupQueryParam]
  ∧ idParam.in_loc = "path"
  ∧ alookup [("id", Value.int 7)] idParam.name = some (Value.int 7)
  ∧ (api_call_request "" "/items/\x7bid\x7d" "post" [idParam, dupQueryParam] true
        [("id", Value.int 7)]).jsonBody = none
  ∧ ¬ (("id", Value.int 7) ∈ (api_call_request "" "/items/\x7bid\x7d" "post"
        [idParam, dupQueryParam] true [("id", Value.int 7)]).jsonBody.getD []) := by
  decide

/-- C9 (amended): for an operation that declares a JSON request body, an
argument bound to a declared path-location parameter is substituted into the
URL and — provided its name is not placed into the query-parameter set — is
also included in the JSON body mapping sent with the request. -/
theorem c9_path_args_in_body (base tmpl method : String) (ps : List Param)
    (kwargs : List (String × Value)) (p : Param) (v : Value)
    (hp : p ∈ ps) (hloc : p.in_loc = "path")
    (hv : alookup kwargs p.name = some v)
    (hnq : keyMem (collectQueryParams ps kwargs) p.name = false) :
    (p.name, v) ∈ (api_call_request base tmpl method ps true kwargs).jsonBody.getD []
  ∧ (api_call_request base tmpl method [p] true kwargs).url
      = strReplace (base ++ tmpl) ("\x7b" ++ p.name ++ "\x7d") (pyStr v) := by
  constructor
  · have hkv : (p.name, v) ∈ kwargs := alookup_mem kwargs p.name v hv
    have hmem : (p.name, v) ∈ collectBodyData true kwargs (collectQueryParams ps kwargs) := by
      show (p.name, v) ∈ kwargs.filter
        (fun kv2 => ! keyMem (collectQueryParams ps kwargs) kv2.1)
      exact List.mem_filter.mpr ⟨hkv, by simp [hnq]⟩
    have hne := List.ne_nil_of_mem hmem
    have hbody : (api_call_request base tmpl method ps true kwargs).jsonBody
        = some (collectBodyData true kwargs (collectQueryParams ps kwargs)) := by
      show (if collectBodyData true kwargs (collectQueryParams ps kwargs) = []
            then none
            else some (collectBodyData true kwargs (collectQueryParams ps kwargs)))
          = some (collectBodyData true kwargs (collectQueryParams ps kwargs))
      rw [if_neg hne]
    rw [hbody]
    simpa using hmem
  · simp [api_call_request, substPathParams, pstep, hloc, hv]

/-- C9 witness: for a JSON-body operation whose only parameter is the path
parameter `id`, the argument `id = 42` is substituted into the URL and also
sent in the JSON body. -/
theorem c9_witness :
    ("id", Value.int 42) ∈ (api_call_request "http://api" "/items/\x7bid\x7d" "post"
        [idParam] true [("id", Value.int 42)]).jsonBody.getD []
  ∧ (api_call_request "http://api" "/items/\x7bid\x7d" "post" [idParam] true
        [("id", Value.int 42)]).url = "http://api/items/42" := by
  have h := c9_path_args_in_body "http://api" "/items/\x7bid\x7d" "post" [idParam]
    [("id", Value.int 42)] idParam (Value.int 42) (by decide) rfl (by decide) (by decide)
  exact ⟨h.1, h.2.trans (by decide)⟩

/-- The spec's example JSON body schema
`\x7btype: object, properties: \x7bname: \x7btype: string\x7d\x7d, required: [name]\x7d`. -/
def specBodySchema : BodySchema :=
  { properties := some [("name", { type_ := some "string", description := none })]
  , required := some ["name"] }

/-- A request body declaring the JSON media type with `specBodySchema`. -/
def specRequestBody : RequestBody := { jsonSchema := some specBodySchema }

/-- C8: a property listed in the JSON body schema's `required` list is
marked required in the derived parameter schema (first conjunct); yet
invoking without that argument still issues the HTTP request — the invoker
consults only the declared parameters and the body flag, never the required
flags, and the request for an empty argument mapping is fully built, with no
payload and no error (second conjunct, at the spec's example operation). -/
theorem c8_required_marking_advisory :
    (∀ (params : List Param) (rb : RequestBody) (bs : BodySchema)
        (props : List (String × PropSchema)) (pn : String) (psch : PropSchema),
        rb.jsonSchema = some bs →
        bs.properties = some props →
        (props.map Prod.fst).Nodup →
        (pn, psch) ∈ props →
        pn ∈ bs.required.getD [] →
        alookup (build_param_schema params (some rb)) pn
            = some (propEntry (bs.required.getD []) pn psch)
          ∧ (propEntry (bs.required.getD []) pn psch).required = true)
  ∧ api_call_request "http://h" "/things" "post" [] true []
      = { method := "POST", url := "http://h/things", queryParams := []
        , jsonBody := none, headers := [("Content-Type", "application/json")] } := by
  constructor
  · intro params rb bs props pn psch hjs hprops hnd hmem hreq
    constructor
    · simp only [build_param_schema, hjs, hprops]
      exact alookup_foldl_dinsert (fun a b => propEntry (bs.required.getD []) a b)
        props (base_param_schema params) pn psch hnd hmem
    · simp [propEntry, hreq]
  · decide

/-- C8 witness: for the spec's example body schema, the derived entry for
`name` is typed `string` and marked required. -/
theorem c8_witness :
    alookup (build_param_schema [] (some specRequestBody)) "name"
      = some { type_ := "string", description := "", required := true }
  ∧ (propEntry ["name"] "name" { type_ := some "string", description := none }).required
      = true := by
  have h := c8_required_marking_advisory.1 [] specRequestBody specBodySchema
    [("name", { type_ := some "string", description := none })] "name"
    { type_ := some "string", description := none } rfl rfl (by decide) (by decide)
    (by decide)
  exact ⟨h.1.trans (by decide), h.2⟩

/-- `filterMap` of an if-some-else-none function is map-after-filter. -/
theorem filterMap_if_eq {α β : Type} (l : List α) (p : α → Prop) [DecidablePred p]
    (f : α → β) :
    l.filterMap (fun a => if p a then some (f a) else none)
      = (l.filter (fun a => decide (p a))).map f := by
  induction l with
  | nil => rfl
  | cons hd tl ih =>
    by_cases h : p hd <;>
      simp [List.filterMap_cons, List.filter_cons, h, ih]

/-- C4: `_create_tools` produces exactly one Tool per (path, method) pair
whose path-item key lower-cases to one of the five recognized HTTP methods
(the tool list is precisely the per-pair image of `_create_tool` over those
pairs), and a triple is such a pair exactly when its method key is
recognized — so no other key under a path item yields a Tool. -/
theorem c4_one_tool_per_recognized_method (doc : Document) :
    _create_tools doc
      = (recognizedPairs doc).map (fun pmo => _create_tool pmo.1 pmo.2.1 pmo.2.2)
  ∧ (∀ (p m : String) (op : Operation),
        (p, m, op) ∈ recognizedPairs doc ↔
          ∃ item, (p, item) ∈ doc.paths ∧ (m, op) ∈ item ∧ lowerStr m ∈ http_methods) := by
  constructor
  · unfold _create_tools recognizedPairs
    rw [List.map_flatMap]
    congr 1
    funext pi
    rw [filterMap_if_eq pi.2 (fun mo => lowerStr mo.1 ∈ http_methods)
      (fun mo => _create_tool pi.1 mo.1 mo.2), List.map_map]
    rfl
  · intro p m op
    constructor
    · intro h
      unfold recognizedPairs at h
      rcases List.mem_flatMap.mp h with ⟨pi, hpi, hmem⟩
      rcases List.mem_map.mp hmem with ⟨mo, hmo, heq⟩
      have hfilter := List.mem_filter.mp hmo
      have hp1 : pi.1 = p := congrArg Prod.fst heq
      have hm1 : mo.1 = m := congrArg (fun x => x.2.1) heq
      have hop1 : mo.2 = op := congrArg (fun x => x.2.2) heq
      refine ⟨pi.2, ?_, ?_, ?_⟩
      · rw [← hp1]
        simpa using hpi
      · rw [← hm1, ← hop1]
        simpa using hfilter.1
      · rw [← hm1]
        exact of_decide_eq_true hfilter.2
    · rintro ⟨item, hitem, hmo, hm⟩
      unfold recognizedPairs
      apply List.mem_flatMap.mpr
      refine ⟨(p, item), hitem, ?_⟩
      apply List.mem_map.mpr
      exact ⟨(m, op), List.mem_filter.mpr ⟨hmo, decide_eq_true hm⟩, rfl⟩

/-- A path-item value under a non-method key (the source only inspects the
key, never this value). -/
def stub_operation : Operation :=
  { operationId := none, summary := none, description := none
  , parameters := [], requestBody := none }

/-- A document with one path holding a recognized method key and an
unrecognized path-item key. -/
def pingDoc : Document :=
  { servers := none
  , paths := [("/ping", [("get", ping_operation), ("summary", stub_operation)])] }

/-- C4 witness: the example document yields exactly the one `GET /ping`
tool, and `("/ping", "get", ping_operation)` is its one recognized pair. -/
theorem c4_witness :
    _create_tools pingDoc = [_create_tool "/ping" "get" ping_operation]
  ∧ ("/ping", "get", ping_operation) ∈ recognizedPairs pingDoc := by
  constructor
  · rw [(c4_one_tool_per_recognized_method pingDoc).1]
    decide
  · exact ((c4_one_tool_per_recognized_method pingDoc).2 "/ping" "get"
      ping_operation).mpr
      ⟨[("get", ping_operation), ("summary", stub_operation)], by decide, by decide,
        by decide⟩

end McpStream
